import Mathlib

/-!
Verification development for the Toma Ai browser front end
(`src/App.tsx`, `src/services/gemini.ts`, `src/types.ts`).

The TypeScript source is shallowly embedded: pure computations become Lean
functions, the React state updates of `handleSendMessage` become explicit
state passing over a list of messages, JavaScript `string | undefined`
values become `Option String`, and thrown exceptions become `Except`.
Numeric timestamps (`Date.now()`) are modelled as `Nat`; the source stores
their decimal string form (`.toString()`), a lossless encoding.
-/

namespace TomaAi

/-- The `Role` enum from `src/types.ts`: `USER: 'user'`, `MODEL: 'model'`. -/
inductive Role where
  | user
  | model
deriving DecidableEq, Repr

/-- The `type` field of the `Attachment` interface in `src/App.tsx`:
`'image' | 'video' | 'pdf' | 'text' | 'zip' | 'code'`. -/
inductive AttachmentType where
  | image
  | video
  | pdf
  | text
  | zip
  | code
deriving DecidableEq, Repr

/-- The `Attachment` interface from `src/App.tsx`: name, data (base64 data-URI or
text content), MIME type, semantic kind, optional size. -/
structure Attachment where
  name : String
  data : String
  mimeType : String
  type : AttachmentType
  size : Option Nat
deriving DecidableEq, Repr

/-- The `Message` interface from `src/types.ts`.  `id` is the numeric timestamp
the source converts with `.toString()`; `isError?` defaults to absent,
modelled as `false`; `attachments?` modelled as a (possibly empty) list. -/
structure Message where
  id : Nat
  role : Role
  content : String
  timestamp : Nat
  isError : Bool
  attachments : List Attachment
deriving DecidableEq, Repr

/-- Concatenation of a list of strings in order (the specification's notion
of "concatenation of the fragments' text in delivery order"). -/
def strConcat : List String → String
  | [] => ""
  | s :: rest => s ++ strConcat rest

/-! ## Streaming aggregation (`handleSendMessage`, `src/App.tsx` 262-275)

The loop
```
let accumulatedText = '';
for await (const chunk of resultStream) \x7b
  const text = responseChunk.text;
  if (text) \x7b
    accumulatedText += text;
    setCurrentMessages(prev => prev.map(msg =>
      msg.id === aiPlaceholderId ? \x7b ...msg, content: accumulatedText \x7d : msg));
  \x7d
\x7d
```
is embedded as a fold over the chunk list.  A chunk's `text` is
`string | undefined`, so chunks are `Option String`; the JavaScript
truthiness test `if (text)` skips both `undefined` and `""`. -/

/-- The `prev.map(...)` updater: set the content of the message whose id is
`aiId`, leave every other message unchanged. -/
def updateMessageContent (msgs : List Message) (aiId : Nat) (newContent : String) : List Message :=
  msgs.map (fun m => if m.id = aiId then { m with content := newContent } else m)

/-- One iteration of the `for await` loop: state is (message list, accumulated
text). -/
def streamStep (aiId : Nat) (st : List Message × String) (chunkText : Option String) :
    List Message × String :=
  match chunkText with
  | some t =>
    if t = "" then st
    else
      let acc := st.2 ++ t
      (updateMessageContent st.1 aiId acc, acc)
  | none => st

/-- Consuming the whole fragment stream, starting from `accumulatedText = ''`. -/
def consumeStream (aiId : Nat) (msgs : List Message) (chunks : List (Option String)) :
    List Message × String :=
  chunks.foldl (streamStep aiId) (msgs, "")

/-- The `catch` branch of `handleSendMessage` (`src/App.tsx` 276-285): the fixed
user-facing failure string. -/
def chatFailureText : String := "عذراً، حدث خطأ أثناء المعالجة."

/-- The `catch` branch updater: replace the in-progress message's content with the
fixed failure string and set its error flag. -/
def failStreamingMessage (msgs : List Message) (aiId : Nat) : List Message :=
  msgs.map (fun m =>
    if m.id = aiId then { m with content := chatFailureText, isError := true } else m)

lemma updateMessageContent_content (msgs : List Message) (aiId : Nat) (c : String) :
    ∀ m ∈ updateMessageContent msgs aiId c, m.id = aiId → m.content = c := by
  intro m hm hid
  simp only [updateMessageContent, List.mem_map] at hm
  obtain ⟨m', _, rfl⟩ := hm
  by_cases h : m'.id = aiId
  · simp [h]
  · simp only [if_neg h] at hid ⊢
    exact absurd hid h

lemma streamStep_fold (aiId : Nat) (chunks : List (Option String)) :
    ∀ msgs acc, (∀ m ∈ msgs, m.id = aiId → m.content = acc) →
      (chunks.foldl (streamStep aiId) (msgs, acc)).2
          = acc ++ strConcat (chunks.filterMap id) ∧
      ∀ m ∈ (chunks.foldl (streamStep aiId) (msgs, acc)).1, m.id = aiId →
        m.content = (chunks.foldl (streamStep aiId) (msgs, acc)).2 := by
  induction chunks with
  | nil =>
    intro msgs acc h
    simp [strConcat]
    exact h
  | cons c rest ih =>
    intro msgs acc h
    match c with
    | none =>
      simpa [streamStep, strConcat] using ih msgs acc h
    | some t =>
      by_cases ht : t = ""
      · subst ht
        simpa [streamStep, strConcat] using ih msgs acc h
      · have hstep : streamStep aiId (msgs, acc) (some t)
            = (updateMessageContent msgs aiId (acc ++ t), acc ++ t) := by
          simp [streamStep, ht]
        have hinv : ∀ m ∈ updateMessageContent msgs aiId (acc ++ t), m.id = aiId →
            m.content = acc ++ t := updateMessageContent_content msgs aiId (acc ++ t)
        have := ih (updateMessageContent msgs aiId (acc ++ t)) (acc ++ t) hinv
        simp only [List.foldl_cons, hstep]
        refine ⟨?_, this.2⟩
        rw [this.1]
        simp [strConcat, ht, String.append_assoc]

/-- C1: For every successful exchange delivering a stream of chunks, the
aggregated display content after consuming them all equals the concatenation
of the delivered fragments' text in delivery order, and the stored content of
the in-progress model message equals exactly that concatenation (each
fragment is applied exactly once: the stored content is the concatenation,
never more). -/
theorem consumeStream_concat (aiId : Nat) (msgs : List Message)
    (chunks : List (Option String))
    (hinit : ∀ m ∈ msgs, m.id = aiId → m.content = "") :
    (consumeStream aiId msgs chunks).2 = strConcat (chunks.filterMap id) ∧
    ∀ m ∈ (consumeStream aiId msgs chunks).1, m.id = aiId →
      m.content = strConcat (chunks.filterMap id) := by
  have h := streamStep_fold aiId chunks msgs "" hinit
  unfold consumeStream
  have h2 : ("" : String) ++ strConcat (chunks.filterMap id)
      = strConcat (chunks.filterMap id) := by
    simp
  constructor
  · rw [h.1, h2]
  · intro m hm hid
    have := h.2 m hm hid
    rw [this, h.1, h2]

/-- Witness for `consumeStream_concat`: a concrete two-message conversation
and a three-chunk stream (one chunk without text). -/
theorem consumeStream_concat_witness :
    (∀ m ∈ [⟨0, Role.user, "hello", 0, false, []⟩,
            (⟨1, Role.model, "", 1, false, []⟩ : Message)], m.id = 1 → m.content = "") ∧
    (consumeStream 1 [⟨0, Role.user, "hello", 0, false, []⟩,
        ⟨1, Role.model, "", 1, false, []⟩] [some "Hi", none, some " there"]).2
      = strConcat ([some "Hi", none, some " there"].filterMap id) ∧
    ∀ m ∈ (consumeStream 1 [⟨0, Role.user, "hello", 0, false, []⟩,
        ⟨1, Role.model, "", 1, false, []⟩] [some "Hi", none, some " there"]).1,
      m.id = 1 → m.content = strConcat ([some "Hi", none, some " there"].filterMap id) :=
  ⟨by decide,
   consumeStream_concat 1
     [⟨0, Role.user, "hello", 0, false, []⟩, ⟨1, Role.model, "", 1, false, []⟩]
     [some "Hi", none, some " there"] (by decide)⟩

lemma streamStep_id_map (aiId : Nat) (st : List Message × String) (c : Option String) :
    (streamStep aiId st c).1.map Message.id = st.1.map Message.id := by
  match c with
  | none => rfl
  | some t =>
    by_cases ht : t = ""
    · simp [streamStep, ht]
    · have hstep : streamStep aiId st (some t)
          = (updateMessageContent st.1 aiId (st.2 ++ t), st.2 ++ t) := by
        simp [streamStep, ht]
      rw [hstep]
      simp only [updateMessageContent, List.map_map]
      apply List.map_congr_left
      intro m _
      by_cases h : m.id = aiId <;> simp [h]

lemma foldl_streamStep_id_map (aiId : Nat) (chunks : List (Option String)) :
    ∀ st : List Message × String,
      (chunks.foldl (streamStep aiId) st).1.map Message.id = st.1.map Message.id := by
  induction chunks with
  | nil => intro st; rfl
  | cons c rest ih =>
    intro st
    simp only [List.foldl_cons]
    rw [ih, streamStep_id_map]

lemma consumeStream_id_map (aiId : Nat) (msgs : List Message)
    (chunks : List (Option String)) :
    (consumeStream aiId msgs chunks).1.map Message.id = msgs.map Message.id :=
  foldl_streamStep_id_map aiId chunks (msgs, "")

/-- C2: when the exchange fails after any number of already-aggregated
fragments, the `catch` handler discards them: the in-progress model message's
content is replaced by the fixed failure string (not by any aggregated text)
and its error flag is set to `true`. -/
theorem stream_failure_replaces_content (aiId : Nat) (msgs : List Message)
    (chunks : List (Option String))
    (hmem : ∃ m ∈ msgs, m.id = aiId) :
    (∃ m ∈ failStreamingMessage (consumeStream aiId msgs chunks).1 aiId,
        m.id = aiId ∧ m.content = chatFailureText ∧ m.isError = true) ∧
    (∀ m ∈ failStreamingMessage (consumeStream aiId msgs chunks).1 aiId,
        m.id = aiId → m.content = chatFailureText ∧ m.isError = true) := by
  constructor
  · obtain ⟨m0, hm0, hid0⟩ := hmem
    have hids := consumeStream_id_map aiId msgs chunks
    have : aiId ∈ (consumeStream aiId msgs chunks).1.map Message.id := by
      rw [hids]
      exact List.mem_map.mpr ⟨m0, hm0, hid0⟩
    obtain ⟨m1, hm1, hid1⟩ := List.mem_map.mp this
    refine ⟨{ m1 with content := chatFailureText, isError := true }, ?_, ?_⟩
    · unfold failStreamingMessage
      exact List.mem_map.mpr ⟨m1, hm1, by simp [hid1]⟩
    · simp [hid1]
  · intro m hm hid
    simp only [failStreamingMessage, List.mem_map] at hm
    obtain ⟨m', _, rfl⟩ := hm
    by_cases h : m'.id = aiId
    · simp [h]
    · simp only [if_neg h] at hid ⊢
      exact absurd hid h

/-- Witness for `stream_failure_replaces_content`: a failure after two
fragments were already aggregated into the placeholder message. -/
theorem stream_failure_replaces_content_witness :
    (∃ m ∈ [⟨0, Role.user, "hello", 0, false, []⟩,
            (⟨1, Role.model, "", 1, false, []⟩ : Message)], m.id = 1) ∧
    (∃ m ∈ failStreamingMessage
        (consumeStream 1 [⟨0, Role.user, "hello", 0, false, []⟩,
            ⟨1, Role.model, "", 1, false, []⟩] [some "Hi", some " there"]).1 1,
        m.id = 1 ∧ m.content = chatFailureText ∧ m.isError = true) ∧
    (∀ m ∈ failStreamingMessage
        (consumeStream 1 [⟨0, Role.user, "hello", 0, false, []⟩,
            ⟨1, Role.model, "", 1, false, []⟩] [some "Hi", some " there"]).1 1,
        m.id = 1 → m.content = chatFailureText ∧ m.isError = true) :=
  ⟨by decide,
   stream_failure_replaces_content 1
     [⟨0, Role.user, "hello", 0, false, []⟩, ⟨1, Role.model, "", 1, false, []⟩]
     [some "Hi", some " there"] (by decide)⟩

/-! ## Attachment routing (`handleSendMessage`, `src/App.tsx` 222-231)

```
const inlineAttachments = [];
attachments.forEach(att => \x7b
  if (att.type === 'image' || att.type === 'video' || att.type === 'pdf')
    inlineAttachments.push(\x7b data: att.data, mimeType: att.mimeType \x7d);
  else userMessageText += '\n\n' + att.data;
\x7d);
```
-/

/-- The `\x7b data, mimeType \x7d` records pushed into `inlineAttachments` and
passed to `sendMessageStream`. -/
structure InlineAttachment where
  data : String
  mimeType : String
deriving DecidableEq, Repr

/-- The kind test of the routing branch in `handleSendMessage`. -/
def isBinaryKind (t : AttachmentType) : Bool :=
  t = AttachmentType.image || t = AttachmentType.video || t = AttachmentType.pdf

/-- The `attachments.forEach` routing loop: state is the growing
`userMessageText` and the `inlineAttachments` array. -/
def processAttachments (text : String) (atts : List Attachment) :
    String × List InlineAttachment :=
  atts.foldl
    (fun st att =>
      if isBinaryKind att.type then (st.1, st.2 ++ [⟨att.data, att.mimeType⟩])
      else (st.1 ++ "\n\n" ++ att.data, st.2))
    (text, [])

lemma processAttachments_fold (atts : List Attachment) :
    ∀ (text : String) (acc : List InlineAttachment),
      atts.foldl
        (fun st att =>
          if isBinaryKind att.type then (st.1, st.2 ++ [⟨att.data, att.mimeType⟩])
          else (st.1 ++ "\n\n" ++ att.data, st.2))
        (text, acc)
      = (text ++ strConcat ((atts.filter (fun a => !isBinaryKind a.type)).map
            (fun a => "\n\n" ++ a.data)),
         acc ++ (atts.filter (fun a => isBinaryKind a.type)).map
            (fun a => ⟨a.data, a.mimeType⟩)) := by
  induction atts with
  | nil => intro text acc; simp [strConcat]
  | cons a rest ih =>
    intro text acc
    by_cases h : isBinaryKind a.type
    · simp only [List.foldl_cons, h, if_pos, List.filter_cons]
      rw [ih]
      simp [h, List.append_assoc]
    · simp only [List.foldl_cons, h, if_neg, Bool.not_eq_true, List.filter_cons]
      rw [ih]
      simp [h, strConcat, String.append_assoc]

/-- C6: exactly one transmission path is chosen per attachment, determined
solely by its kind: the inline list is exactly the binary-kind attachments
(image/video/pdf) in original order, and the outgoing message text is the
original text followed by the data of exactly the non-binary (text-like)
attachments in original order.  Hence a text-like attachment never becomes an
inline part, and a binary attachment never enters the prompt text. -/
theorem attachment_routing_exclusive (text : String) (atts : List Attachment) :
    processAttachments text atts
      = (text ++ strConcat ((atts.filter (fun a => !isBinaryKind a.type)).map
            (fun a => "\n\n" ++ a.data)),
         (atts.filter (fun a => isBinaryKind a.type)).map
            (fun a => ⟨a.data, a.mimeType⟩)) := by
  unfold processAttachments
  rw [processAttachments_fold]
  simp

/-! ## Payload construction (`sendMessageStream`, `src/services/gemini.ts` 43-58)

```
let messagePayload = message;
if (attachments.length > 0) \x7b
  const parts = attachments.map(att => (\x7b
    inlineData: \x7b data: att.data.split(',')[1], mimeType: att.mimeType \x7d \x7d));
  parts.push(\x7b text: message \x7d);
  messagePayload = parts;
\x7d
```
-/

/-- JavaScript `s.split(',')` on the character list of a string: always
returns at least one (possibly empty) piece. -/
def jsSplitComma : List Char → List (List Char)
  | [] => [[]]
  | c :: rest =>
    let r := jsSplitComma rest
    if c = ',' then [] :: r
    else
      match r with
      | [] => [[c]]
      | h :: t => (c :: h) :: t

/-- Embedding of `att.data.split(',')[1]`: the piece after the first comma; JavaScript
yields `undefined` when there is no comma, modelled as `none`. -/
def stripDataUri (data : String) : Option String :=
  ((jsSplitComma data.toList).get? 1).map List.asString

/-- A part of the message payload sent to the API. -/
inductive Part where
  | inlineData (data : Option String) (mimeType : String)
  | text (s : String)
deriving DecidableEq, Repr

/-- The `messagePayload` value: a bare string, or an array of parts. -/
inductive MessagePayload where
  | plain (s : String)
  | parts (l : List Part)
deriving DecidableEq, Repr

/-- Payload construction in `sendMessageStream`. -/
def buildPayload (message : String) (attachments : List InlineAttachment) :
    MessagePayload :=
  if attachments.length > 0 then
    MessagePayload.parts
      (attachments.map (fun att => Part.inlineData (stripDataUri att.data) att.mimeType)
        ++ [Part.text message])
  else MessagePayload.plain message

lemma jsSplitComma_no_comma (l : List Char) (h : ',' ∉ l) :
    jsSplitComma l = [l] := by
  induction l with
  | nil => rfl
  | cons c rest ih =>
    have hc : c ≠ ',' := fun hcc => h (hcc ▸ List.mem_cons_self c rest)
    have hrest : ',' ∉ rest := fun hr => h (List.mem_cons_of_mem c hr)
    simp only [jsSplitComma, ih hrest, if_neg hc]

lemma jsSplitComma_split (pre pay : List Char) (hpre : ',' ∉ pre) (hpay : ',' ∉ pay) :
    jsSplitComma (pre ++ ',' :: pay) = [pre, pay] := by
  induction pre with
  | nil => simp [jsSplitComma, jsSplitComma_no_comma pay hpay]
  | cons c rest ih =>
    have hc : c ≠ ',' := fun hcc => hpre (hcc ▸ List.mem_cons_self c rest)
    have hrest : ',' ∉ rest := fun hr => hpre (List.mem_cons_of_mem c hr)
    simp only [List.cons_append, jsSplitComma, if_neg hc, List.append_eq]
    rw [ih hrest]

/-- C3: for every non-empty attachment list passed to `sendMessageStream`,
the payload is an array consisting of one inline part per attachment, in the
original order (with the attachment's MIME type), followed by a single
trailing text part holding the message text; each inline part's data is the
attachment's data stripped of its data-URI prefix (the piece after the first
comma). -/
theorem sendPayload_structure (message : String) (atts : List InlineAttachment)
    (h : atts ≠ []) :
    (∃ parts, buildPayload message atts = MessagePayload.parts parts ∧
      parts.length = atts.length + 1 ∧
      (∀ i (hi : i < atts.length),
        parts.get? i = some (Part.inlineData (stripDataUri (atts.get ⟨i, hi⟩).data)
          (atts.get ⟨i, hi⟩).mimeType)) ∧
      parts.getLast? = some (Part.text message)) ∧
    ∀ att ∈ atts, ∀ pre pay : String,
      ',' ∉ pre.toList → ',' ∉ pay.toList → att.data = pre ++ "," ++ pay →
        stripDataUri att.data = some pay := by
  constructor
  · refine ⟨atts.map (fun att => Part.inlineData (stripDataUri att.data) att.mimeType)
      ++ [Part.text message], ?_, ?_, ?_, ?_⟩
    · unfold buildPayload
      rw [if_pos (by simpa [List.length_pos] using h)]
    · simp
    · intro i hi
      rw [List.get?_append (by simpa using hi), List.get?_map, List.get?_eq_get hi]
      rfl
    · rw [List.getLast?_append]
      rfl
  · intro att _ pre pay hpre hpay hdata
    unfold stripDataUri
    have : att.data.toList = pre.toList ++ ',' :: pay.toList := by
      rw [hdata]
      simp
    rw [this, jsSplitComma_split pre.toList pay.toList hpre hpay]
    rfl

/-- Witness for `sendPayload_structure`: one image attachment carrying a
data URI, message "hello". -/
theorem sendPayload_structure_witness :
    ((⟨"data:image/png;base64,AAAA", "image/png"⟩ : InlineAttachment) :: [] ≠ []) ∧
    ((∃ parts, buildPayload "hello" [⟨"data:image/png;base64,AAAA", "image/png"⟩]
        = MessagePayload.parts parts ∧
      parts.length = [(⟨"data:image/png;base64,AAAA", "image/png"⟩ : InlineAttachment)].length + 1 ∧
      (∀ i (hi : i < [(⟨"data:image/png;base64,AAAA", "image/png"⟩ : InlineAttachment)].length),
        parts.get? i = some (Part.inlineData
          (stripDataUri ([(⟨"data:image/png;base64,AAAA", "image/png"⟩ : InlineAttachment)].get ⟨i, hi⟩).data)
          ([(⟨"data:image/png;base64,AAAA", "image/png"⟩ : InlineAttachment)].get ⟨i, hi⟩).mimeType)) ∧
      parts.getLast? = some (Part.text "hello")) ∧
    ∀ att ∈ [(⟨"data:image/png;base64,AAAA", "image/png"⟩ : InlineAttachment)],
      ∀ pre pay : String,
      ',' ∉ pre.toList → ',' ∉ pay.toList → att.data = pre ++ "," ++ pay →
        stripDataUri att.data = some pay) :=
  ⟨by decide,
   sendPayload_structure "hello" [⟨"data:image/png;base64,AAAA", "image/png"⟩]
     (by decide)⟩

/-! ## One-shot image generation (`generateImage`, `src/services/gemini.ts` 60-92)

The API response shape is embedded with `Option` for every JavaScript
optional-chaining step (`candidates && candidates[0]?.content?.parts`), and
errors as a record of the fields `is429` inspects. -/

/-- The `part.inlineData` field: optional data and MIME type (both may be absent). -/
structure InlineData where
  data : Option String
  mimeType : Option String
deriving DecidableEq, Repr

/-- A part of a response candidate's content; only `inlineData` is inspected
by `generateImage`. -/
structure ResponsePart where
  inlineData : Option InlineData
deriving DecidableEq, Repr

/-- A `candidate.content` record with its optional `parts` array. -/
structure CandidateContent where
  parts : Option (List ResponsePart)
deriving DecidableEq, Repr

/-- A response candidate with its optional `content`. -/
structure Candidate where
  content : Option CandidateContent
deriving DecidableEq, Repr

/-- A `generateContent` response: optional candidates array. -/
structure GenResponse where
  candidates : Option (List Candidate)
deriving DecidableEq, Repr

/-- A thrown JavaScript error as inspected by `is429`: optional `status`,
`code` and `message` fields. -/
structure JsError where
  status : Option String
  code : Option Nat
  message : Option String
deriving DecidableEq, Repr

/-- JavaScript `hay.includes(needle)`: substring containment on character
lists. -/
def containsSub (needle : List Char) : List Char → Bool
  | [] => needle.isEmpty
  | c :: rest => needle.isPrefixOf (c :: rest) || containsSub needle rest

/-- The `is429` helper from `src/services/gemini.ts` 11-18: resource-exhaustion test.
`err.message?.includes(s)` is substring containment, `undefined` being
falsy. -/
def is429 (err : JsError) : Bool :=
  err.status = some "RESOURCE_EXHAUSTED" || err.code = some 429 ||
    (match err.message with
     | some m => containsSub "429".toList m.toList || containsSub "quota".toList m.toList
     | none => false)

/-- Embedding of `part.inlineData.mimeType || 'image/png'`: empty or absent MIME type
falls back to the default. -/
def mimeOrDefault : Option String → String
  | some m => if m = "" then "image/png" else m
  | none => "image/png"

/-- The body of the `for` loop over the first candidate's parts: a part
yields a data URI iff it has inline data with a truthy (non-empty) `data`
field. -/
def partImage (p : ResponsePart) : Option String :=
  match p.inlineData with
  | some idata =>
    match idata.data with
    | some d =>
      if d = "" then none
      else some ("data:" ++ mimeOrDefault idata.mimeType ++ ";base64," ++ d)
    | none => none
  | none => none

/-- The parts scanned by `generateImage`: `candidates[0]?.content?.parts`,
empty when any link of the optional chain is absent. -/
def responseParts (resp : GenResponse) : List ResponsePart :=
  match resp.candidates with
  | some (c :: _) =>
    match c.content with
    | some content => content.parts.getD []
    | none => []
  | _ => []

/-- Successful-response handling of `attemptGenerate`: return the first
part's data URI, or `null` when no part qualifies. -/
def extractImage (resp : GenResponse) : Option String :=
  (responseParts resp).findSome? partImage

/-- The observable run of `generateImage`: the backoff delays slept (ms), the
number of attempts issued, and the final outcome (`.ok` carries the possibly
null data URI, `.error` the propagated exception). -/
structure RetryRun where
  delays : List Nat
  attemptsMade : Nat
  result : Except JsError (Option String)
deriving Repr

/-- The `attemptGenerate` recursion of `generateImage`: attempt `retryCount` is the
(`retryCount`+1)-th call of the underlying API, whose outcome is given by
`attempts`.  On a quota error with `retryCount < 3` it sleeps
`(retryCount + 1) * 2000` ms and recurses; otherwise the error propagates. -/
def attemptGenerate (attempts : Nat → Except JsError GenResponse) (retryCount : Nat) :
    RetryRun :=
  match attempts retryCount with
  | .ok resp => ⟨[], 1, .ok (extractImage resp)⟩
  | .error e =>
    if h : is429 e = true ∧ retryCount < 3 then
      let r := attemptGenerate attempts (retryCount + 1)
      ⟨(retryCount + 1) * 2000 :: r.delays, r.attemptsMade + 1, r.result⟩
    else ⟨[], 1, .error e⟩
termination_by 3 - retryCount
decreasing_by omega

/-- Entry point: `generateImage` starts at `retryCount = 0`. -/
def generateImage (attempts : Nat → Except JsError GenResponse) : RetryRun :=
  attemptGenerate attempts 0

lemma attemptGenerate_ok (attempts : Nat → Except JsError GenResponse) (k : Nat)
    (resp : GenResponse) (hk : attempts k = .ok resp) :
    attemptGenerate attempts k = ⟨[], 1, .ok (extractImage resp)⟩ := by
  rw [attemptGenerate, hk]

lemma attemptGenerate_quota (attempts : Nat → Except JsError GenResponse) (k : Nat)
    (e : JsError) (hk : attempts k = .error e) (h429 : is429 e = true) (hlt : k < 3) :
    attemptGenerate attempts k =
      ⟨(k + 1) * 2000 :: (attemptGenerate attempts (k + 1)).delays,
       (attemptGenerate attempts (k + 1)).attemptsMade + 1,
       (attemptGenerate attempts (k + 1)).result⟩ := by
  rw [attemptGenerate, hk]
  simp [h429, hlt]

lemma attemptGenerate_stop (attempts : Nat → Except JsError GenResponse) (k : Nat)
    (e : JsError) (hk : attempts k = .error e) (h : ¬(is429 e = true ∧ k < 3)) :
    attemptGenerate attempts k = ⟨[], 1, .error e⟩ := by
  rw [attemptGenerate, hk]
  simp only [dif_neg h]

/-- C4: the retry policy of `generateImage`.
(1) If every attempt fails with a quota-exhaustion error, exactly 3 retries
occur with delays 2000, 4000, 6000 ms and the 4th attempt's error propagates
after 4 attempts.
(2) If attempts before `k ≤ 3` fail with quota errors and attempt `k`
succeeds, its result is returned after `k + 1` attempts with only the first
`k` delays and no further retries.
(3) A non-quota error at any attempt `k ≤ 3` — whether on the first attempt
or after earlier quota-triggered retries — propagates immediately: no
further attempt and no further delay follow it. -/
theorem generateImage_retry_policy :
    (∀ (attempts : Nat → Except JsError GenResponse) (e : Nat → JsError),
      (∀ i, i ≤ 3 → attempts i = .error (e i) ∧ is429 (e i) = true) →
      generateImage attempts = ⟨[2000, 4000, 6000], 4, .error (e 3)⟩) ∧
    (∀ (attempts : Nat → Except JsError GenResponse) (e : Nat → JsError)
        (k : Nat) (resp : GenResponse),
      k ≤ 3 → (∀ j, j < k → attempts j = .error (e j) ∧ is429 (e j) = true) →
      attempts k = .ok resp →
      generateImage attempts =
        ⟨(List.range k).map (fun i => (i + 1) * 2000), k + 1, .ok (extractImage resp)⟩) ∧
    (∀ (attempts : Nat → Except JsError GenResponse) (e : Nat → JsError)
        (k : Nat) (err : JsError),
      k ≤ 3 → (∀ j, j < k → attempts j = .error (e j) ∧ is429 (e j) = true) →
      attempts k = .error err → is429 err = false →
      generateImage attempts =
        ⟨(List.range k).map (fun i => (i + 1) * 2000), k + 1, .error err⟩) := by
  refine ⟨?_, ?_, ?_⟩
  · intro attempts e h
    have h0 := h 0 (by omega)
    have h1 := h 1 (by omega)
    have h2 := h 2 (by omega)
    have h3 := h 3 (by omega)
    unfold generateImage
    rw [attemptGenerate_quota attempts 0 (e 0) h0.1 h0.2 (by omega),
        attemptGenerate_quota attempts 1 (e 1) h1.1 h1.2 (by omega),
        attemptGenerate_quota attempts 2 (e 2) h2.1 h2.2 (by omega),
        attemptGenerate_stop attempts 3 (e 3) h3.1 (by omega)]
  · intro attempts e k resp hk hfail hok
    unfold generateImage
    interval_cases k
    · rw [attemptGenerate_ok attempts 0 resp hok]
      rfl
    · have h0 := hfail 0 (by omega)
      rw [attemptGenerate_quota attempts 0 (e 0) h0.1 h0.2 (by omega),
          attemptGenerate_ok attempts 1 resp hok]
      rfl
    · have h0 := hfail 0 (by omega)
      have h1 := hfail 1 (by omega)
      rw [attemptGenerate_quota attempts 0 (e 0) h0.1 h0.2 (by omega),
          attemptGenerate_quota attempts 1 (e 1) h1.1 h1.2 (by omega),
          attemptGenerate_ok attempts 2 resp hok]
      rfl
    · have h0 := hfail 0 (by omega)
      have h1 := hfail 1 (by omega)
      have h2 := hfail 2 (by omega)
      rw [attemptGenerate_quota attempts 0 (e 0) h0.1 h0.2 (by omega),
          attemptGenerate_quota attempts 1 (e 1) h1.1 h1.2 (by omega),
          attemptGenerate_quota attempts 2 (e 2) h2.1 h2.2 (by omega),
          attemptGenerate_ok attempts 3 resp hok]
      rfl
  · intro attempts e k err hk hfail herr h429
    unfold generateImage
    interval_cases k
    · rw [attemptGenerate_stop attempts 0 err herr (by simp [h429])]
      rfl
    · have h0 := hfail 0 (by omega)
      rw [attemptGenerate_quota attempts 0 (e 0) h0.1 h0.2 (by omega),
          attemptGenerate_stop attempts 1 err herr (by simp [h429])]
      rfl
    · have h0 := hfail 0 (by omega)
      have h1 := hfail 1 (by omega)
      rw [attemptGenerate_quota attempts 0 (e 0) h0.1 h0.2 (by omega),
          attemptGenerate_quota attempts 1 (e 1) h1.1 h1.2 (by omega),
          attemptGenerate_stop attempts 2 err herr (by simp [h429])]
      rfl
    · have h0 := hfail 0 (by omega)
      have h1 := hfail 1 (by omega)
      have h2 := hfail 2 (by omega)
      rw [attemptGenerate_quota attempts 0 (e 0) h0.1 h0.2 (by omega),
          attemptGenerate_quota attempts 1 (e 1) h1.1 h1.2 (by omega),
          attemptGenerate_quota attempts 2 (e 2) h2.1 h2.2 (by omega),
          attemptGenerate_stop attempts 3 err herr (by simp [h429])]
      rfl

/-- A concrete quota-exhaustion error (HTTP 429 shape). -/
def quotaError : JsError := ⟨some "RESOURCE_EXHAUSTED", some 429, some "quota exceeded"⟩

/-- A concrete non-quota error. -/
def plainError : JsError := ⟨none, some 500, some "internal"⟩

/-- A concrete successful response holding one inline PNG part. -/
def okImageResponse : GenResponse :=
  ⟨some [⟨some ⟨some [⟨some ⟨some "AAAA", some "image/png"⟩⟩]⟩⟩]⟩

lemma is429_quotaError : is429 quotaError = true := by decide

lemma is429_plainError : is429 plainError = false := by decide

/-- Witness for `generateImage_retry_policy`: the three scenarios run on
concrete attempt schedules; the third propagates a non-quota error arising
on the second attempt, after one quota-triggered retry. -/
theorem generateImage_retry_policy_witness :
    generateImage (fun _ => .error quotaError) = ⟨[2000, 4000, 6000], 4, .error quotaError⟩ ∧
    generateImage (fun i => if i < 1 then .error quotaError else .ok okImageResponse)
      = ⟨[2000], 2, .ok (extractImage okImageResponse)⟩ ∧
    generateImage (fun i => if i < 1 then .error quotaError else .error plainError)
      = ⟨[2000], 2, .error plainError⟩ := by
  refine ⟨?_, ?_, ?_⟩
  · exact generateImage_retry_policy.1 (fun _ => .error quotaError) (fun _ => quotaError)
      (fun i _ => ⟨rfl, is429_quotaError⟩)
  · have := generateImage_retry_policy.2.1
      (fun i => if i < 1 then .error quotaError else .ok okImageResponse)
      (fun _ => quotaError) 1 okImageResponse (by omega)
      (fun j hj => by interval_cases j; exact ⟨rfl, is429_quotaError⟩) rfl
    simpa using this
  · have := generateImage_retry_policy.2.2
      (fun i => if i < 1 then .error quotaError else .error plainError)
      (fun _ => quotaError) 1 plainError (by omega)
      (fun j hj => by interval_cases j; exact ⟨rfl, is429_quotaError⟩) rfl
      is429_plainError
    simpa using this

/-- C10: `generateImage` can resolve to `null` without throwing — a
successful first attempt whose response has no candidate part with truthy
inline image data yields `.ok none` (no error, callers must handle `null`);
and when a qualifying inline part is present (first among the scanned parts),
the result is `.ok` of a data URI prefixed with the part's MIME type,
defaulting to `image/png` when the MIME type is absent or empty. -/
theorem generateImage_null_or_dataUri
    (attempts : Nat → Except JsError GenResponse) (resp : GenResponse)
    (h0 : attempts 0 = .ok resp) :
    ((∀ p ∈ responseParts resp, partImage p = none) →
      generateImage attempts = ⟨[], 1, .ok none⟩) ∧
    (∀ (pre rest : List ResponsePart) (p : ResponsePart) (idata : InlineData)
        (d : String),
      responseParts resp = pre ++ p :: rest →
      (∀ q ∈ pre, partImage q = none) →
      p.inlineData = some idata → idata.data = some d → d ≠ "" →
      generateImage attempts =
        ⟨[], 1, .ok (some ("data:" ++ mimeOrDefault idata.mimeType ++ ";base64," ++ d))⟩) := by
  constructor
  · intro hnone
    unfold generateImage
    rw [attemptGenerate_ok attempts 0 resp h0]
    unfold extractImage
    rw [List.findSome?_eq_none_iff.mpr hnone]
  · intro pre rest p idata d hsplit hpre hidata hd hne
    unfold generateImage
    rw [attemptGenerate_ok attempts 0 resp h0]
    unfold extractImage
    rw [hsplit]
    have hp : partImage p
        = some ("data:" ++ mimeOrDefault idata.mimeType ++ ";base64," ++ d) := by
      simp [partImage, hidata, hd, hne]
    have hskip : ∀ (l : List ResponsePart), (∀ q ∈ l, partImage q = none) →
        ∀ tail : List ResponsePart,
          (l ++ tail).findSome? partImage = tail.findSome? partImage := by
      intro l hl
      induction l with
      | nil => intro tail; rfl
      | cons q qs ih =>
        intro tail
        have hq : partImage q = none := hl q (List.mem_cons_self q qs)
        simp only [List.cons_append, List.findSome?_cons, hq]
        exact ih (fun r hr => hl r (List.mem_cons_of_mem q hr)) tail
    rw [hskip pre hpre (p :: rest)]
    simp [List.findSome?_cons, hp]

/-- A concrete successful response with parts but no usable inline data:
one part without `inlineData`, one whose `data` is absent, one whose `data`
is the empty string. -/
def noImageResponse : GenResponse :=
  ⟨some [⟨some ⟨some [⟨none⟩, ⟨some ⟨none, some "image/png"⟩⟩,
      ⟨some ⟨some "", none⟩⟩]⟩⟩]⟩

/-- Witness for `generateImage_null_or_dataUri`: both branches on concrete
responses (the qualifying part of `okImageResponse` has MIME `image/png`;
a second scenario exercises the `image/png` default). -/
theorem generateImage_null_or_dataUri_witness :
    generateImage (fun _ => .ok noImageResponse) = ⟨[], 1, .ok none⟩ ∧
    generateImage (fun _ => .ok okImageResponse)
      = ⟨[], 1, .ok (some "data:image/png;base64,AAAA")⟩ := by
  constructor
  · exact (generateImage_null_or_dataUri (fun _ => .ok noImageResponse)
      noImageResponse rfl).1 (by decide)
  · have := (generateImage_null_or_dataUri (fun _ => .ok okImageResponse)
      okImageResponse rfl).2 [] [] ⟨some ⟨some "AAAA", some "image/png"⟩⟩
      ⟨some "AAAA", some "image/png"⟩ "AAAA" rfl (by simp) rfl rfl (by decide)
    simpa [mimeOrDefault] using this

/-! ## Video generation polling (`generateVeoVideo`, `src/services/gemini.ts` 94-113)

```
let operation = await ai.models.generateVideos(\x7b ... \x7d);
while (!operation.done) \x7b
  await new Promise(resolve => setTimeout(resolve, 5000));
  operation = await ai.operations.getVideosOperation(\x7b operation \x7d);
\x7d
const videoUri = operation.response?.generatedVideos?.[0]?.video?.uri;
if (videoUri) return uri + '&key=' + apiKey;
return null;
```
The initial operation comes from the submission; `next i` is the result of
the (i+1)-th `getVideosOperation` poll.  The unbounded `while` loop is
embedded with explicit fuel: `none` means the loop has not terminated within
`fuel` iterations. -/

/-- An operation-status handle: the `done` flag and the URI reachable through
`response?.generatedVideos?.[0]?.video?.uri` (collapsed to one optional
field, `none` for any broken link of the optional chain). -/
structure VeoOperation where
  done : Bool
  uri : Option String
deriving DecidableEq, Repr

/-- The polling loop, with the current operation and the index of the next
poll made explicit.  Returns `some (delays, pollCalls, finalOp)` if the
`done` flag is observed within `fuel` loop iterations, `none` otherwise.
Each iteration sleeps 5000 ms and then polls once. -/
def pollLoopFrom (next : Nat → VeoOperation) :
    VeoOperation → Nat → Nat → Option (List Nat × Nat × VeoOperation)
  | cur, _, 0 => if cur.done then some ([], 0, cur) else none
  | cur, i, fuel + 1 =>
    if cur.done then some ([], 0, cur)
    else
      match pollLoopFrom next (next i) (i + 1) fuel with
      | some (ds, n, fin) => some (5000 :: ds, n + 1, fin)
      | none => none

/-- The `while (!operation.done)` loop of `generateVeoVideo`, starting from
the submission's operation, before any poll. -/
def pollLoop (init : VeoOperation) (next : Nat → VeoOperation) (fuel : Nat) :
    Option (List Nat × Nat × VeoOperation) :=
  pollLoopFrom next init 0 fuel

/-- Result extraction after the loop: `if (videoUri) return uri + '&key=' +
apiKey; return null;` — the URI is taken from the final operation, and the
truthiness test makes both an absent and an empty-string URI yield `null`. -/
def veoResult (apiKey : String) (fin : VeoOperation) : Option String :=
  match fin.uri with
  | some u => if u = "" then none else some (u ++ "&key=" ++ apiKey)
  | none => none

/-- Observable behaviour of `generateVeoVideo` under explicit fuel. -/
def generateVeoVideo (apiKey : String) (init : VeoOperation)
    (next : Nat → VeoOperation) (fuel : Nat) :
    Option (List Nat × Nat × Option String) :=
  match pollLoop init next fuel with
  | some (ds, n, fin) => some (ds, n, veoResult apiKey fin)
  | none => none

/-- C5: (1) for an operation not done on submission whose first 3 polls
report `done = false` and whose 4th reports `done = true`, any fuel ≥ 4
makes the loop stop after exactly 4 poll calls, each preceded by a 5000 ms
delay, and the video URI is extracted from the 4th poll's operation;
(2) no maximum poll count bounds the loop: for an operation that never
completes, every finite fuel is exhausted without the loop terminating. -/
theorem veoPolling_four_polls (apiKey : String) (init : VeoOperation)
    (next : Nat → VeoOperation) (fuel : Nat)
    (hinit : init.done = false)
    (h012 : ∀ i, i < 3 → (next i).done = false)
    (h3 : (next 3).done = true)
    (hfuel : 4 ≤ fuel) :
    generateVeoVideo apiKey init next fuel
      = some ([5000, 5000, 5000, 5000], 4, veoResult apiKey (next 3)) ∧
    ∀ (stuck : VeoOperation) (stuckNext : Nat → VeoOperation) (n : Nat),
      stuck.done = false → (∀ i, (stuckNext i).done = false) →
      pollLoop stuck stuckNext n = none := by
  have hstep : ∀ (nx : Nat → VeoOperation) (op : VeoOperation) (i f : Nat),
      op.done = false →
      pollLoopFrom nx op i (f + 1)
        = (match pollLoopFrom nx (nx i) (i + 1) f with
           | some (ds, n, fin) => some (5000 :: ds, n + 1, fin)
           | none => none) := by
    intro nx op i f hop
    simp [pollLoopFrom, hop]
  have hdone : ∀ (nx : Nat → VeoOperation) (op : VeoOperation) (i f : Nat),
      op.done = true → pollLoopFrom nx op i f = some ([], 0, op) := by
    intro nx op i f hop
    cases f <;> simp [pollLoopFrom, hop]
  constructor
  · obtain ⟨k, rfl⟩ : ∃ k, fuel = k + 1 + 1 + 1 + 1 := ⟨fuel - 4, by omega⟩
    have h0 := h012 0 (by omega)
    have h1 := h012 1 (by omega)
    have h2 := h012 2 (by omega)
    unfold generateVeoVideo pollLoop
    rw [hstep next init 0 _ hinit, hstep next (next 0) 1 _ h0,
        hstep next (next 1) 2 _ h1, hstep next (next 2) 3 _ h2,
        hdone next (next 3) 4 k h3]
  · intro stuck stuckNext n
    unfold pollLoop
    suffices h : ∀ (f : Nat) (op : VeoOperation) (i : Nat),
        op.done = false → (∀ j, (stuckNext j).done = false) →
        pollLoopFrom stuckNext op i f = none by
      intro hs hnext
      exact h n stuck 0 hs hnext
    intro f
    induction f with
    | zero =>
      intro op i hs _
      simp [pollLoopFrom, hs]
    | succ k ih =>
      intro op i hs hnext
      rw [hstep stuckNext op i k hs, ih (stuckNext i) (i + 1) (hnext i) hnext]

/-- Witness for `veoPolling_four_polls`: a concrete schedule where the 4th
poll completes with a URI, run with fuel 10. -/
theorem veoPolling_four_polls_witness :
    ((⟨false, none⟩ : VeoOperation).done = false ∧
     (∀ i, i < 3 → ((fun j => if j < 3 then (⟨false, none⟩ : VeoOperation)
        else ⟨true, some "http://v/1"⟩) i).done = false) ∧
     ((fun j => if j < 3 then (⟨false, none⟩ : VeoOperation)
        else ⟨true, some "http://v/1"⟩) 3).done = true ∧ 4 ≤ 10) ∧
    generateVeoVideo "K" ⟨false, none⟩
      (fun j => if j < 3 then ⟨false, none⟩ else ⟨true, some "http://v/1"⟩) 10
      = some ([5000, 5000, 5000, 5000], 4, some ("http://v/1" ++ "&key=" ++ "K")) := by
  refine ⟨⟨rfl, ?_, rfl, by omega⟩, ?_⟩
  · intro i hi
    interval_cases i <;> rfl
  · have := (veoPolling_four_polls "K" ⟨false, none⟩
      (fun j => if j < 3 then ⟨false, none⟩ else ⟨true, some "http://v/1"⟩) 10
      rfl (fun i hi => by interval_cases i <;> rfl) rfl (by omega)).1
    rw [this]
    rfl

/-! ## Session creation (`getClient` / `createChatSession`, `src/services/gemini.ts` 5-41)

`getClient` reads `process.env.API_KEY || ''` — a missing credential is
silently replaced by the empty string, and the client is constructed
unconditionally.  `createChatSession` then assembles the chat configuration
and creates the chat handle locally.  Neither function contains any
credential check or error path; the embedding gives `createChatSession` an
explicit `Except ConfigurationError` channel so that the specification's
claimed failure is statable, and the source never uses it. -/

/-- The `ModelType` enum from `src/types.ts`. -/
inductive ModelType where
  | FLASH
  | PRO
  | FLASH_LITE
  | VEO
deriving DecidableEq, Repr

/-- The API client: holds the key it was constructed with. -/
structure GenAIClient where
  apiKey : String
deriving DecidableEq, Repr

/-- The spec's claimed error class for a missing credential (§7); the source
never raises it. -/
inductive ConfigurationError where
  | missingCredential
deriving DecidableEq, Repr

/-- The chat-session handle produced by `ai.chats.create`. -/
structure ChatSession where
  client : GenAIClient
  model : ModelType
  systemInstruction : String
  thinkingBudget : Option Nat
  tools : List String
  history : List Message
deriving DecidableEq, Repr

/-- Embedding of `getClient`: `process.env.API_KEY || ''` — a missing key becomes the
empty string; no failure. -/
def getClient (env : Option String) : GenAIClient :=
  ⟨env.getD ""⟩

/-- The `defaultInstruction` literal of `createChatSession`. -/
def defaultInstruction : String :=
  "You are Toma Ai, a helpful and intelligent AI assistant developed by Tamer Mohamed Saleh. You are chatting with an Arabic speaking user. Always reply in Arabic unless the user specifically asks for another language. Be polite, concise, and accurate."

/-- Embedding of `createChatSession`: builds the config (`systemInstruction ||
defaultInstruction`, a thinking budget for PRO, search tools for FLASH) and
creates the session.  There is no credential check: the result is always
`.ok`. -/
def createChatSession (env : Option String) (model : ModelType)
    (systemInstruction : Option String) : Except ConfigurationError ChatSession :=
  let ai := getClient env
  let instr :=
    match systemInstruction with
    | some s => if s = "" then defaultInstruction else s
    | none => defaultInstruction
  .ok
    { client := ai
      model := model
      systemInstruction := instr
      thinkingBudget := if model = ModelType.PRO then some 32768 else none
      tools := if model = ModelType.FLASH then ["googleSearch", "googleMaps"] else []
      history := [] }

/-- Counterexample to C7: with no API credential configured, session
creation succeeds — `getClient` substitutes the empty-string key and
`createChatSession` returns a session handle; no `ConfigurationError` is
raised at session-creation time. -/
theorem createChatSession_no_credential_check :
    (createChatSession none ModelType.FLASH none).isOk = true ∧
    (getClient none).apiKey = "" := by
  constructor
  · rfl
  · rfl

/-- C7 (amended): absence of an API credential never fails session creation:
for every environment, model and instruction, `createChatSession` returns a
session whose client carries the configured key or the empty string; the
missing-credential failure is deferred to actual message-send API calls. -/
theorem createChatSession_always_ok (env : Option String) (model : ModelType)
    (systemInstruction : Option String) :
    ∃ s, createChatSession env model systemInstruction = .ok s ∧
      s.client.apiKey = env.getD "" := by
  refine ⟨_, rfl, ?_⟩
  rfl

/-! ## ZIP ingestion (`handleFileSelect`, `src/App.tsx` 135-167)

```
let extractedText = '[ARCHIVE_CONTENT: ' + file.name + ']\n';
let fileCount = 0;
for (const [path, entry] of entries) \x7b
  if (fileCount > 50) break;
  if (!entry.dir) \x7b
    if (path.match(/\.(js|ts|...|config|yml)$/i)) \x7b
      extractedText += '\n--- START FILE: ' + path + ' ---\n' + content + '\n--- END FILE ---\n';
      fileCount++;
    \x7d
  \x7d
\x7d
```
-/

/-- A member of the loaded archive: its path, directory flag, and (for
files) its decoded string content. -/
structure ZipEntry where
  path : String
  dir : Bool
  content : String
deriving DecidableEq, Repr

/-- The extension alternatives of the text-member regex
`/\.(js|ts|tsx|jsx|json|html|css|py|md|txt|xml|c|cpp|java|config|yml)$/i`. -/
def zipTextExtensions : List String :=
  ["js", "ts", "tsx", "jsx", "json", "html", "css", "py", "md", "txt", "xml",
   "c", "cpp", "java", "config", "yml"]

/-- The case-insensitive suffix test performed by the regex. -/
def isTextLikePath (path : String) : Bool :=
  zipTextExtensions.any (fun e => path.toLower.endsWith ("." ++ e))

/-- The start/end path markers wrapped around one included member. -/
def fileMarker (path content : String) : String :=
  "\n--- START FILE: " ++ path ++ " ---\n" ++ content ++ "\n--- END FILE ---\n"

/-- The `[ARCHIVE_CONTENT: name]` header line. -/
def zipHeader (name : String) : String :=
  "[ARCHIVE_CONTENT: " ++ name ++ "]\n"

/-- The extraction loop over the archive's entries, with the accumulated
text and the included-member count. -/
def zipLoop : List ZipEntry → String → Nat → String
  | [], acc, _ => acc
  | e :: rest, acc, count =>
    if count > 50 then acc
    else if !e.dir && isTextLikePath e.path then
      zipLoop rest (acc ++ fileMarker e.path e.content) (count + 1)
    else zipLoop rest acc count

/-- The synthetic attachment produced for an ingested ZIP archive. -/
def mkZipAttachment (name : String) (entries : List ZipEntry) (size : Option Nat) :
    Attachment :=
  { name := name
    data := zipLoop entries (zipHeader name) 0
    mimeType := "application/zip"
    type := AttachmentType.zip
    size := size }

lemma zipLoop_eq (entries : List ZipEntry) :
    ∀ (acc : String) (count : Nat), count ≤ 51 →
      zipLoop entries acc count
        = acc ++ strConcat
            (((entries.filter (fun e => !e.dir && isTextLikePath e.path)).take (51 - count)).map
              (fun e => fileMarker e.path e.content)) := by
  induction entries with
  | nil =>
    intro acc count _
    simp [zipLoop, strConcat]
  | cons e rest ih =>
    intro acc count hcount
    by_cases hstop : count > 50
    · have hc : count = 51 := by omega
      subst hc
      simp [zipLoop, strConcat]
    · have hle : count ≤ 50 := by omega
      by_cases hq : (!e.dir && isTextLikePath e.path) = true
      · have htake : 51 - count = (50 - count) + 1 := by omega
        have h51 : 51 - (count + 1) = 50 - count := by omega
        simp only [zipLoop, if_neg hstop, hq, if_pos, List.filter_cons, htake,
          List.take_succ_cons, List.map_cons]
        rw [ih (acc ++ fileMarker e.path e.content) (count + 1) (by omega), h51]
        simp [strConcat, String.append_assoc]
      · simp only [zipLoop, if_neg hstop, hq, Bool.false_eq_true, if_false,
          List.filter_cons]
        rw [ih acc count (by omega)]

/-- C8: ingesting a ZIP archive yields a single synthetic attachment (kind
`zip`, MIME `application/zip`) whose textual data is the archive header
followed by the concatenation, with start/end path markers, of exactly the
first 51 qualifying members (non-directory entries whose path has a
text-like extension); directories and non-text members contribute nothing,
and at most 51 members are ever included. -/
theorem zipAttachment_content (name : String) (entries : List ZipEntry)
    (size : Option Nat) :
    (mkZipAttachment name entries size).type = AttachmentType.zip ∧
    (mkZipAttachment name entries size).mimeType = "application/zip" ∧
    (mkZipAttachment name entries size).data
      = zipHeader name ++ strConcat
          (((entries.filter (fun e => !e.dir && isTextLikePath e.path)).take 51).map
            (fun e => fileMarker e.path e.content)) ∧
    ((entries.filter (fun e => !e.dir && isTextLikePath e.path)).take 51).length ≤ 51 := by
  refine ⟨rfl, rfl, ?_, ?_⟩
  · have := zipLoop_eq entries (zipHeader name) 0 (by omega)
    simpa using this
  · exact le_trans (List.length_take_le 51 _) (le_refl 51)

/-! ## Message identifier assignment (`handleSendMessage`, `src/App.tsx` 241-257)

```
const newUserMessage = \x7b id: Date.now().toString(), ... \x7d;
const aiPlaceholderId = (Date.now() + 1).toString();
```
Identifiers are numeric wall-clock timestamps, stored in decimal string form
(a lossless injective encoding, so equality and order of the underlying
numbers decide equality of the stored identifiers).  `tUser` and `tAi` are
the two successive `Date.now()` readings of one send; a monotone clock
guarantees `tUser ≤ tAi` within a send and that readings never decrease
across sends. -/

/-- The user message built by one send, from the `Date.now()` readings used
for its id and its timestamp. -/
def newUserMessage (tId tStamp : Nat) (text : String) (atts : List Attachment) :
    Message :=
  ⟨tId, Role.user, text, tStamp, false, atts⟩

/-- The model placeholder built by the same send: id is a fresh
`Date.now() + 1`. -/
def newAiPlaceholder (tId tStamp : Nat) : Message :=
  ⟨tId + 1, Role.model, "", tStamp + 1, false, []⟩

/-- Counterexample to C9: identifiers are not unique.  Send 1 reads the
clock at 5 and 5 (user id 5, placeholder id 6); send 2 begins one
millisecond later, reading 6 and 6 (user id 6) — a monotone clock
(5 ≤ 5 ≤ 6 ≤ 6), yet the second send's user message and the first send's
placeholder share the identifier 6, and the later-created message's id is
not strictly greater. -/
theorem messageId_collision :
    (5 ≤ 5 ∧ 5 ≤ 6 ∧ 6 ≤ 6) ∧
    (newUserMessage 6 6 "" []).id = (newAiPlaceholder 5 5).id ∧
    ¬ (newAiPlaceholder 5 5).id < (newUserMessage 6 6 "" []).id := by
  refine ⟨⟨by omega, by omega, by omega⟩, rfl, by decide⟩

/-- C9 (amended): within one send the placeholder's id is strictly greater
than the user message's id; and across two sends, if the second send's first
clock reading exceeds the first send's second reading by at least 2 ms, all
four identifiers are strictly increasing in creation order (hence pairwise
distinct).  Without that clock gap, ids can collide
(`messageId_collision`). -/
theorem messageIds_monotone (t1 t2 t3 t4 : Nat) (text1 text2 : String)
    (atts1 atts2 : List Attachment)
    (h12 : t1 ≤ t2) (h23 : t2 + 2 ≤ t3) (h34 : t3 ≤ t4) :
    (newUserMessage t1 t1 text1 atts1).id < (newAiPlaceholder t2 t2).id ∧
    (newAiPlaceholder t2 t2).id < (newUserMessage t3 t3 text2 atts2).id ∧
    (newUserMessage t3 t3 text2 atts2).id < (newAiPlaceholder t4 t4).id := by
  simp only [newUserMessage, newAiPlaceholder]
  omega

/-- Witness for `messageIds_monotone`: clock readings 10, 10, 12, 13. -/
theorem messageIds_monotone_witness :
    (10 ≤ 10 ∧ 10 + 2 ≤ 12 ∧ 12 ≤ 13) ∧
    ((newUserMessage 10 10 "a" []).id < (newAiPlaceholder 10 10).id ∧
     (newAiPlaceholder 10 10).id < (newUserMessage 12 12 "b" []).id ∧
     (newUserMessage 12 12 "b" []).id < (newAiPlaceholder 13 13).id) :=
  ⟨⟨by omega, by omega, by omega⟩,
   messageIds_monotone 10 10 12 13 "a" "b" [] [] (by omega) (by omega) (by omega)⟩

end TomaAi
